import Mathlib

/-!
Verification development for the `l2r-lab` repository: a shallow embedding of
the SAC agent (`agents/sac_agent.py`) and the FIFO replay buffer
(`src/buffers/SimpleReplayBuffer.py`), with theorems settling the frozen
claims about them.

Tensors of floats are modelled as lists of rationals; neural networks are
abstract functions; `torch.mean` is sum divided by length.
-/

namespace L2RLab

/-! ## SimpleReplayBuffer (src/buffers/SimpleReplayBuffer.py)

`self.buffer = collections.deque(maxlen=self.max_size)`: a bounded FIFO.
We model the deque contents as a `List`, oldest element first. -/

/-- One append to a `collections.deque(maxlen=maxSize)`: the new element goes
to the back; if the deque already holds `maxSize` elements the front (oldest)
element is discarded.  Written uniformly as dropping the overflow from the
front of `buf ++ [x]` (for `buf.length < maxSize` nothing is dropped). -/
def dequeAppend (maxSize : ℕ) (buf : List α) (x : α) : List α :=
  (buf ++ [x]).drop (buf.length + 1 - maxSize)

/-- Model of `deque.extend(other)`: appends the elements of `other` one by one, each
append evicting the oldest element when the deque is full. -/
def dequeExtend (maxSize : ℕ) (buf : List α) (xs : List α) : List α :=
  xs.foldl (dequeAppend maxSize) buf

/-- The inputs `SimpleReplayBuffer.store` distinguishes by `type(values)`:
a `dict` transition, another buffer of the same class (its contents, oldest
first), or anything else. -/
inductive StoreInput (α : Type) where
  | dict (x : α)
  | buffer (contents : List α)
  | invalid
deriving DecidableEq

/-- The exception raised by the `else` branch of `store`. -/
inductive StoreError where
  | invalidInputType
deriving DecidableEq

/-- Model of `SimpleReplayBuffer.store` (lines 26-63): a `dict` is converted to a
transition record and appended; a buffer of the same class has its deque
extended onto this one; any other input raises before touching the deque,
so the buffer contents are returned unchanged alongside the error. -/
def store (maxSize : ℕ) (buf : List α) (v : StoreInput α) :
    List α × Option StoreError :=
  match v with
  | .dict x => (dequeAppend maxSize buf x, none)
  | .buffer contents => (dequeExtend maxSize buf contents, none)
  | .invalid => (buf, some .invalidInputType)

/-- Running a sequence of `store` calls starting from a buffer state
(a raised exception leaves the contents as `store` returned them). -/
def runStores (maxSize : ℕ) (buf : List α) (ops : List (StoreInput α)) :
    List α :=
  ops.foldl (fun b op => (store maxSize b op).1) buf

/-- The elements one store operation tries to append, in order. -/
def elemsOf : StoreInput α → List α
  | .dict x => [x]
  | .buffer contents => contents
  | .invalid => []

/-- The elements a list of store operations tries to append, in order. -/
def appendedElems (ops : List (StoreInput α)) : List α :=
  (ops.map elemsOf).flatten

/-- The suffix of the last (at most) `n` elements of a list. -/
def lastN (n : ℕ) (l : List α) : List α := l.drop (l.length - n)

/-! ### Buffer lemmas -/

theorem length_lastN (n : ℕ) (l : List α) : (lastN n l).length ≤ n := by
  simp only [lastN, List.length_drop]
  omega

theorem lastN_of_le {n : ℕ} {l : List α} (h : l.length ≤ n) : lastN n l = l := by
  have : l.length - n = 0 := by omega
  simp [lastN, this]

theorem dequeAppend_eq_lastN (maxSize : ℕ) (buf : List α) (x : α) :
    dequeAppend maxSize buf x = lastN maxSize (buf ++ [x]) := by
  simp [dequeAppend, lastN]

theorem lastN_cons_of_le {n : ℕ} {a : List α} (x : α) (h : n ≤ a.length) :
    lastN n (x :: a) = lastN n a := by
  have h1 : (x :: a).length - n = (a.length - n) + 1 := by
    simp only [List.length_cons]; omega
  simp only [lastN, h1, List.drop_succ_cons]

theorem lastN_append_lastN (n : ℕ) (a b : List α) :
    lastN n (lastN n a ++ b) = lastN n (a ++ b) := by
  induction a with
  | nil => simp [lastN]
  | cons x a ih =>
      by_cases h : n ≤ a.length
      · rw [lastN_cons_of_le x h, ih, List.cons_append,
          lastN_cons_of_le x (by simp; omega)]
      · rw [lastN_of_le (l := x :: a) (by simp; omega)]

theorem dequeExtend_eq_lastN (maxSize : ℕ) (buf xs : List α)
    (h : buf.length ≤ maxSize) :
    dequeExtend maxSize buf xs = lastN maxSize (buf ++ xs) := by
  induction xs generalizing buf with
  | nil => simpa [dequeExtend] using (lastN_of_le h).symm
  | cons x xs ih =>
      have hstep : dequeExtend maxSize buf (x :: xs)
          = dequeExtend maxSize (dequeAppend maxSize buf x) xs := rfl
      rw [hstep, ih _ (by
        rw [dequeAppend_eq_lastN]; exact length_lastN _ _)]
      rw [dequeAppend_eq_lastN, lastN_append_lastN]
      simp

theorem store_length_le (maxSize : ℕ) (buf : List α) (v : StoreInput α)
    (h : buf.length ≤ maxSize) : (store maxSize buf v).1.length ≤ maxSize := by
  cases v with
  | dict x =>
      simpa [store, dequeAppend_eq_lastN] using length_lastN maxSize (buf ++ [x])
  | buffer contents =>
      simpa [store, dequeExtend_eq_lastN maxSize buf contents h] using
        length_lastN maxSize (buf ++ contents)
  | invalid => simpa [store] using h

theorem store_eq_lastN (maxSize : ℕ) (buf : List α) (v : StoreInput α)
    (h : buf.length ≤ maxSize) :
    (store maxSize buf v).1 = lastN maxSize (buf ++ elemsOf v) := by
  cases v with
  | dict x => simp [store, elemsOf, dequeAppend_eq_lastN]
  | buffer contents =>
      simp [store, elemsOf, dequeExtend_eq_lastN maxSize buf contents h]
  | invalid =>
      simp only [store, elemsOf, List.append_nil]
      exact (lastN_of_le h).symm

theorem appendedElems_cons (op : StoreInput α) (ops : List (StoreInput α)) :
    appendedElems (op :: ops) = elemsOf op ++ appendedElems ops := by
  simp [appendedElems]

theorem runStores_eq_lastN (maxSize : ℕ) (ops : List (StoreInput α))
    (buf : List α) (h : buf.length ≤ maxSize) :
    runStores maxSize buf ops = lastN maxSize (buf ++ appendedElems ops) := by
  induction ops generalizing buf with
  | nil =>
      simp only [runStores, List.foldl_nil, appendedElems, List.map_nil,
        List.flatten_nil, List.append_nil]
      exact (lastN_of_le h).symm
  | cons op ops ih =>
      have hstep : runStores maxSize buf (op :: ops)
          = runStores maxSize (store maxSize buf op).1 ops := rfl
      rw [hstep, ih _ (store_length_le maxSize buf op h),
        store_eq_lastN maxSize buf op h, lastN_append_lastN,
        appendedElems_cons, List.append_assoc]

/-! ## sample_batch (src/buffers/SimpleReplayBuffer.py, lines 68-89)

`np.random.choice` picks `min(batch_size, len(buffer))` distinct indices; the
randomness is abstracted as the index list `idxs`.  The method then gathers
the indexed transitions and sets `self.weights` to
`torch.tensor(np.zeros_like(idxs))`, a zero tensor with one entry per chosen
index. -/

structure SampleResult (τ : Type) where
  batch : List τ
  weights : List ℚ
deriving DecidableEq

/-- Model of `SimpleReplayBuffer.sample_batch`, with the indices chosen by
`np.random.choice` passed in explicitly. -/
def sample_batch (buf : List τ) (idxs : List ℕ) : SampleResult τ :=
  { batch := idxs.filterMap fun i => buf.get? i
    weights := List.replicate idxs.length 0 }

/-! ## SAC losses (agents/sac_agent.py)

A batch row is one replay transition `(obs, act, rew, obs2, done)`.
Observations and actions are abstract types; the Q networks are abstract
functions to ℚ, and the squashed-Gaussian policy is an abstract function
returning a sampled action together with its log-probability. -/

structure Transition (O A : Type) where
  obs : O
  act : A
  rew : ℚ
  obs2 : O
  done : ℚ

/-- Model of `torch.Tensor.mean()` for a one-dimensional tensor: sum divided by the
number of elements (with the ℚ convention `x / 0 = 0` for the empty tensor). -/
def tmean (xs : List ℚ) : ℚ := xs.sum / xs.length

/-- Model of `SACAgent.compute_loss_q` (lines 172-208).  Arguments: the discount
`gamma` and entropy coefficient `alpha` from `self.cfg`; the buffer's
`weights` tensor; the online Q networks `q1, q2` and target Q networks
`q1_targ, q2_targ`; the current policy `acPi` (as in `self.actor_critic.pi`,
returning the sampled action and its log-probability); and the batch `data`.
Returns `loss_q = loss_q1 + loss_q2`. -/
def compute_loss_q {O A : Type} (gamma alpha : ℚ) (weights : List ℚ)
    (q1 q2 q1_targ q2_targ : O → A → ℚ) (acPi : O → A × ℚ)
    (data : List (Transition O A)) : ℚ :=
  let q1v := data.map fun tr => q1 tr.obs tr.act
  let q2v := data.map fun tr => q2 tr.obs tr.act
  let backup := data.map fun tr =>
    let a2 := (acPi tr.obs2).1
    let logp_a2 := (acPi tr.obs2).2
    let q1_pi_targ := q1_targ tr.obs2 a2
    let q2_pi_targ := q2_targ tr.obs2 a2
    let q_pi_targ := min q1_pi_targ q2_pi_targ
    tr.rew + gamma * (1 - tr.done) * (q_pi_targ - alpha * logp_a2)
  let loss_q1 := tmean (List.zipWith (fun w sq => w * sq) weights
    (List.zipWith (fun q b => (q - b) ^ 2) q1v backup))
  let loss_q2 := tmean (List.zipWith (fun w sq => w * sq) weights
    (List.zipWith (fun q b => (q - b) ^ 2) q2v backup))
  loss_q1 + loss_q2

/-- Model of `SACAgent.compute_loss_pi` (lines 210-224): sample `pi, logp_pi` from the
current policy on the batch observations, take the minimum of the two online
Q values at the sampled actions, and return
`(alpha * logp_pi - q_pi).mean()`. -/
def compute_loss_pi {O A : Type} (alpha : ℚ) (q1 q2 : O → A → ℚ)
    (acPi : O → A × ℚ) (obs : List O) : ℚ :=
  let piv := obs.map fun o => (acPi o).1
  let logp_pi := obs.map fun o => (acPi o).2
  let q1_pi := List.zipWith q1 obs piv
  let q2_pi := List.zipWith q2 obs piv
  let q_pi := List.zipWith min q1_pi q2_pi
  tmean (List.zipWith (fun lp q => alpha * lp - q) logp_pi q_pi)

/-! ### Spec-side restatements of the losses (for the refinement claims) -/

/-- The Bellman backup exactly as the spec words it:
`r + gamma * (1 - done) * (min(Q1_target(o2, a2), Q2_target(o2, a2))
 - alpha * log pi(a2 | o2))` with `a2` drawn from the current policy. -/
def specBellmanBackup {O A : Type} (gamma alpha : ℚ)
    (q1_targ q2_targ : O → A → ℚ) (acPi : O → A × ℚ)
    (tr : Transition O A) : ℚ :=
  tr.rew + gamma * (1 - tr.done) *
    (min (q1_targ tr.obs2 (acPi tr.obs2).1) (q2_targ tr.obs2 (acPi tr.obs2).1)
      - alpha * (acPi tr.obs2).2)

/-- The buffer-weight-scaled mean squared error between `q(o, a)` and the
Bellman backup, for one Q network. -/
def specWeightedMSE {O A : Type} (gamma alpha : ℚ) (weights : List ℚ)
    (q q1_targ q2_targ : O → A → ℚ) (acPi : O → A × ℚ)
    (data : List (Transition O A)) : ℚ :=
  tmean (List.zipWith
    (fun w tr => w * (q tr.obs tr.act
      - specBellmanBackup gamma alpha q1_targ q2_targ acPi tr) ^ 2)
    weights data)

/-- The spec's Q loss: the sum over both Q networks of the weight-scaled
mean squared error against the entropy-regularized Bellman backup. -/
def specQLoss {O A : Type} (gamma alpha : ℚ) (weights : List ℚ)
    (q1 q2 q1_targ q2_targ : O → A → ℚ) (acPi : O → A × ℚ)
    (data : List (Transition O A)) : ℚ :=
  specWeightedMSE gamma alpha weights q1 q1_targ q2_targ acPi data
    + specWeightedMSE gamma alpha weights q2 q1_targ q2_targ acPi data

/-- The spec's policy loss: the batch mean of
`alpha * log pi(a | o) - min(Q1(o, a), Q2(o, a))` with `a` drawn from the
current policy at `o`. -/
def specPiLoss {O A : Type} (alpha : ℚ) (q1 q2 : O → A → ℚ)
    (acPi : O → A × ℚ) (obs : List O) : ℚ :=
  tmean (obs.map fun o =>
    alpha * (acPi o).2 - min (q1 o (acPi o).1) (q2 o (acPi o).1))

/-! ## SACAgent.update (lines 226-256)

Parameter tensors are flattened to lists of rationals.  The online
actor-critic's parameters split into the policy parameters and the Q
parameters (`self.q_params`, the chained parameters of `q1` and `q2`, as in
the Spinning Up source this agent is adopted from); `actor_critic.parameters()`
enumerates the policy parameters followed by the Q parameters, and the target
actor-critic is a `deepcopy`, so its parameter list corresponds elementwise.
`requires_grad` flags are kept for the Q parameters.  The two optimizer
steps are abstract functions `stepQ`, `stepPi`.

Modelled from the spec: `self.q_optimizer`, `self.pi_optimizer` and
`self.q_params` are referenced by `update` but constructed outside the files
under `src/`; per the spec (standard twin-Q SAC adapted from the public
Spinning Up reference) the Q optimizer holds exactly the Q-network parameters
and the pi optimizer exactly the policy parameters, so `stepQ` acts on
`qData` only and `stepPi` on `piData` only. -/

structure AgentParams where
  piData : List ℚ
  qData : List ℚ
  qGrad : List Bool
  targData : List ℚ
deriving DecidableEq

/-- Model of `self.actor_critic.parameters()`: policy parameters then Q parameters. -/
def onlineData (s : AgentParams) : List ℚ := s.piData ++ s.qData

/-- Model of `self.q_optimizer.step()` after `loss_q.backward()`. -/
def qOptStep (stepQ : List ℚ → List ℚ) (s : AgentParams) : AgentParams :=
  { s with qData := stepQ s.qData }

/-- Model of `for p in self.q_params: p.requires_grad = False`. -/
def freezeQ (s : AgentParams) : AgentParams :=
  { s with qGrad := s.qGrad.map fun _ => false }

/-- Model of `self.pi_optimizer.step()` after `loss_pi.backward()`. -/
def piOptStep (stepPi : List ℚ → List ℚ) (s : AgentParams) : AgentParams :=
  { s with piData := stepPi s.piData }

/-- Model of `for p in self.q_params: p.requires_grad = True`. -/
def unfreezeQ (s : AgentParams) : AgentParams :=
  { s with qGrad := s.qGrad.map fun _ => true }

/-- The polyak averaging loop: for each pair `(p, p_targ)` from zipping the
online and target parameter iterators, `p_targ.data.mul_(polyak)` then
`p_targ.data.add_((1 - polyak) * p.data)`. -/
def polyakUpdate (polyak : ℚ) (s : AgentParams) : AgentParams :=
  { s with targData :=
      (List.zipWith (fun p_targ p => p_targ * polyak + (1 - polyak) * p)
        s.targData (onlineData s)) }

/-- Model of `SACAgent.update`: one Q-optimizer step, freeze Q, one pi-optimizer step,
unfreeze Q, then polyak-average the target network. -/
def update (stepQ stepPi : List ℚ → List ℚ) (polyak : ℚ)
    (s : AgentParams) : AgentParams :=
  polyakUpdate polyak (unfreezeQ (piOptStep stepPi (freezeQ (qOptStep stepQ s))))

/-! ## select_action / register_reset (lines 51-73)

`select_action` only reads and writes `self.t` and reads
`self.deterministic`; `register_reset` sets `self.deterministic = True` and
`self.t = 1e6`.  `t` and `start_steps` are numbers (ℚ, as the Python values
are a float after `register_reset`). -/

structure SelState where
  t : ℚ
  deterministic : Bool
deriving DecidableEq

/-- What a `select_action` call does: either act through the learned policy
`self.actor_critic.act(obs, self.deterministic)` (recording
`"transition_actor" = "learner"`), or sample `self.action_space.sample()`
(recording `"random"`). -/
inductive ActionBranch where
  | learner (deterministic : Bool)
  | random
deriving DecidableEq

/-- Model of `SACAgent.select_action`: take the learned branch iff
`self.t > start_steps`, then increment `self.t`. -/
def select_action (start_steps : ℚ) (s : SelState) : ActionBranch × SelState :=
  if start_steps < s.t then
    (ActionBranch.learner s.deterministic, { s with t := s.t + 1 })
  else
    (ActionBranch.random, { s with t := s.t + 1 })

/-- Model of `SACAgent.register_reset`: sets `self.deterministic = True` and
`self.t = 1e6`. -/
def register_reset (_s : SelState) : SelState :=
  { deterministic := true, t := 1000000 }

/-- The agent state after `n` further `select_action` calls. -/
def stepsAfter (start_steps : ℚ) (s : SelState) : ℕ → SelState
  | 0 => s
  | n + 1 => (select_action start_steps (stepsAfter start_steps s n)).2

/-! ## setup_vision_encoder (lines 94-119)

The method asserts `use_encoder_type ∈ ["vae"]`, reads the encoder config,
constructs the `VAE` backbone and loads its checkpoint state dict in the
`"vae"` branch, and would raise `NotImplementedError` in the unreachable
`else`.  We record what was built. -/

inductive EncoderError where
  | assertionError
  | notImplementedError
deriving DecidableEq

structure EncoderSetup where
  backbone : String
  checkpointLoaded : Bool
deriving DecidableEq

/-- Model of `SACAgent.setup_vision_encoder`: the assert fires before any backbone is
constructed; on `"vae"` a VAE backbone is built and its checkpoint loaded. -/
def setup_vision_encoder (use_encoder_type : String) :
    Except EncoderError EncoderSetup :=
  if use_encoder_type ∈ ["vae"] then
    if use_encoder_type = "vae" then
      Except.ok { backbone := "vae", checkpointLoaded := true }
    else
      Except.error EncoderError.notImplementedError
  else
    Except.error EncoderError.assertionError

/-! ## Thread and save-queue effects of the agent operations (for the
concurrency claim)

Each method of `SACAgent` in `agents/sac_agent.py`, with the number of
`threading.Thread(...).start()` calls it performs and whether it touches
`self.save_queue`.  Read off the source: `setup_experience_recorder`
(lines 81-92) creates `self.save_queue` and starts the single
`self.save_thread` running `record_experience.save_thread` (which consumes
the queue); `__init__` (lines 36-49) calls it iff
`self.cfg["record_experience"]`; no other method mentions `threading` or
`save_queue`. -/

inductive AgentOp where
  | init (record_experience : Bool)
  | selectAction
  | registerReset
  | loadModel
  | saveModel
  | setupExperienceRecorder
  | setupVisionEncoder
  | setParams
  | loadModelConfig
  | setupLoggers
  | computeLossQ
  | computeLossPi
  | updateOp
  | updateBestPctComplete
  | checkpointModel
  | addExperience
  | logValMetricsToTensorboard
  | logTrainMetricsToTensorboard
deriving DecidableEq

/-- Number of threads an operation spawns. -/
def threadsSpawned : AgentOp → ℕ
  | .setupExperienceRecorder => 1
  | .init record_experience => if record_experience then 1 else 0
  | _ => 0

/-- Whether an operation creates or hands off the cross-thread save queue. -/
def touchesSaveQueue : AgentOp → Bool
  | .setupExperienceRecorder => true
  | .init record_experience => record_experience
  | _ => false

/-! ## List helper lemmas for the loss computations -/

theorem zipWith_map_map {α β β₁ β₂ γ δ : Type} (f : α → γ → δ)
    (op : β₁ → β₂ → γ) (g : β → β₁) (h : β → β₂) (w : List α) (l : List β) :
    List.zipWith f w (List.zipWith op (l.map g) (l.map h))
      = List.zipWith (fun a b => f a (op (g b) (h b))) w l := by
  induction w generalizing l with
  | nil => simp
  | cons a w ih =>
      cases l with
      | nil => simp
      | cons b l => simp only [List.map_cons, List.zipWith_cons_cons, ih]

theorem zipWith_map_same {α β₁ β₂ γ : Type} (f : β₁ → β₂ → γ)
    (g : α → β₁) (h : α → β₂) (l : List α) :
    List.zipWith f (l.map g) (l.map h) = l.map fun x => f (g x) (h x) := by
  induction l with
  | nil => rfl
  | cons x l ih => simp [ih]

theorem zipWith_self_map {α β γ : Type} (f : α → β → γ) (g : α → β)
    (l : List α) :
    List.zipWith f l (l.map g) = l.map fun x => f x (g x) := by
  induction l with
  | nil => rfl
  | cons x l ih => simp [ih]

theorem zipWith_map_self {α β γ : Type} (f : β → α → γ) (g : α → β)
    (l : List α) :
    List.zipWith f (l.map g) l = l.map fun x => f (g x) x := by
  induction l with
  | nil => rfl
  | cons x l ih => simp [ih]

theorem sum_zipWith_mul_replicate_zero (k : ℕ) (xs : List ℚ) :
    (List.zipWith (fun w sq => w * sq) (List.replicate k (0 : ℚ)) xs).sum
      = 0 := by
  induction k generalizing xs with
  | zero => simp
  | succ k ih => cases xs <;> simp [List.replicate_succ, ih]

/-! ## Claim theorems -/

/-- C1: for every batch, `compute_loss_q` computes the Bellman backup
`r + gamma * (1 - done) * (min(Q1_target(o2, a2), Q2_target(o2, a2))
 - alpha * log pi(a2 | o2))` with `a2` drawn from the current policy, and
returns the sum over both Q networks of the buffer-weight-scaled mean
squared error between `Q(o, a)` and that backup. -/
theorem compute_loss_q_matches_spec {O A : Type} (gamma alpha : ℚ)
    (weights : List ℚ) (q1 q2 q1_targ q2_targ : O → A → ℚ)
    (acPi : O → A × ℚ) (data : List (Transition O A)) :
    compute_loss_q gamma alpha weights q1 q2 q1_targ q2_targ acPi data
      = specQLoss gamma alpha weights q1 q2 q1_targ q2_targ acPi data := by
  simp only [compute_loss_q, specQLoss, specWeightedMSE, specBellmanBackup,
    zipWith_map_map]

/-- C2: `sample_batch` leaves `weights` as a zero tensor of length
`min(batch_size, len(buffer))`, so the weighted Q-loss computed by
`compute_loss_q` from any batch sampled by this buffer is zero, whatever
the networks and the batch contents. -/
theorem sampled_weights_zero_and_qloss_zero {τ O A : Type} (buf : List τ)
    (idxs : List ℕ) (batch_size : ℕ) (_hne : 0 < buf.length)
    (hlen : idxs.length = min batch_size buf.length) (gamma alpha : ℚ)
    (q1 q2 q1_targ q2_targ : O → A → ℚ) (acPi : O → A × ℚ)
    (data : List (Transition O A)) :
    (sample_batch buf idxs).weights
        = List.replicate (min batch_size buf.length) (0 : ℚ)
      ∧ compute_loss_q gamma alpha (sample_batch buf idxs).weights
          q1 q2 q1_targ q2_targ acPi data = 0 := by
  constructor
  · simp [sample_batch, hlen]
  · simp only [compute_loss_q, sample_batch, tmean,
      sum_zipWith_mul_replicate_zero, zero_div, add_zero]

/-- Witness for C2 at a concrete buffer, index choice and batch. -/
theorem sampled_weights_zero_and_qloss_zero_witness :
    0 < [(5 : ℚ), 7, 9].length
    ∧ [0, 2].length = min 2 [(5 : ℚ), 7, 9].length
    ∧ (sample_batch [(5 : ℚ), 7, 9] [0, 2]).weights
        = List.replicate (min 2 [(5 : ℚ), 7, 9].length) (0 : ℚ)
    ∧ compute_loss_q 1 1 (sample_batch [(5 : ℚ), 7, 9] [0, 2]).weights
        (fun o a => o + a) (fun o a => o - a) (fun o a => o * a)
        (fun o a => o + 2 * a) (fun o => (o, o))
        [⟨1, 2, 3, 4, 0⟩, ⟨2, 1, 1, 1, 1⟩] = 0 := by
  refine ⟨by decide, by decide, ?_, ?_⟩
  · exact (sampled_weights_zero_and_qloss_zero [(5 : ℚ), 7, 9] [0, 2] 2
      (by decide) (by decide) 1 1 (fun o a => o + a) (fun o a => o - a)
      (fun o a => o * a) (fun o a => o + 2 * a) (fun o => (o, o))
      [⟨1, 2, 3, 4, 0⟩, ⟨2, 1, 1, 1, 1⟩]).1
  · exact (sampled_weights_zero_and_qloss_zero [(5 : ℚ), 7, 9] [0, 2] 2
      (by decide) (by decide) 1 1 (fun o a => o + a) (fun o a => o - a)
      (fun o a => o * a) (fun o a => o + 2 * a) (fun o => (o, o))
      [⟨1, 2, 3, 4, 0⟩, ⟨2, 1, 1, 1, 1⟩]).2

/-- C3: for every batch, `compute_loss_pi` returns the batch mean of
`alpha * log pi(a | o) - min(Q1(o, a), Q2(o, a))` with the actions drawn
from the current policy on the batch observations. -/
theorem compute_loss_pi_matches_spec {O A : Type} (alpha : ℚ)
    (q1 q2 : O → A → ℚ) (acPi : O → A × ℚ) (obs : List O) :
    compute_loss_pi alpha q1 q2 acPi obs
      = specPiLoss alpha q1 q2 acPi obs := by
  simp only [compute_loss_pi, specPiLoss, zipWith_self_map,
    zipWith_map_same, zipWith_map_self]

/-- C4: after `update`, each target parameter equals `polyak` times its value
before the call plus `1 - polyak` times the corresponding online parameter
after this call's gradient steps (the online parameters of the returned
state, which the polyak loop does not modify). -/
theorem update_target_polyak_average (stepQ stepPi : List ℚ → List ℚ)
    (polyak : ℚ) (s : AgentParams) :
    (update stepQ stepPi polyak s).targData
      = List.zipWith (fun p_targ p => polyak * p_targ + (1 - polyak) * p)
          s.targData (onlineData (update stepQ stepPi polyak s)) := by
  have hcomm : (fun p_targ p => p_targ * polyak + (1 - polyak) * p)
      = fun (p_targ p : ℚ) => polyak * p_targ + (1 - polyak) * p := by
    funext p_targ p
    ring
  simp only [update, polyakUpdate, unfreezeQ, piOptStep, freezeQ, qOptStep,
    onlineData, hcomm]

/-- C5: starting from a fresh buffer of capacity `size`, any sequence of
store operations keeps the length at most `size`, leaves exactly the most
recent at-most-`size` appended elements in first-in-first-out order, and a
store into a full buffer evicts exactly the oldest element. -/
theorem replay_buffer_fifo_bounded {α : Type} (size : ℕ)
    (ops : List (StoreInput α)) :
    (runStores size ([] : List α) ops).length ≤ size
      ∧ runStores size ([] : List α) ops
          = (appendedElems ops).drop ((appendedElems ops).length - size)
      ∧ ∀ (buf : List α) (x : α), buf.length = size → 0 < size →
          (store size buf (StoreInput.dict x)).1 = buf.tail ++ [x] := by
  have hrun := runStores_eq_lastN size ops ([] : List α) (by simp)
  simp only [List.nil_append] at hrun
  refine ⟨?_, ?_, ?_⟩
  · rw [hrun]
    exact length_lastN size (appendedElems ops)
  · rw [hrun]
    rfl
  · intro buf x hfull hpos
    have h1 : buf.length + 1 - size = 1 := by omega
    have h2 : (1 : ℕ) ≤ buf.length := by omega
    simp only [store, dequeAppend, h1,
      List.drop_append_of_le_length h2, List.drop_one]

/-- Witness for C5: capacity 2, three stored elements; the buffer keeps the
last two, and appending to the full buffer `[1, 2]` evicts `1`. -/
theorem replay_buffer_fifo_bounded_witness :
    (runStores 2 ([] : List ℚ)
        [StoreInput.dict 1, StoreInput.dict 2, StoreInput.dict 3]).length ≤ 2
    ∧ runStores 2 ([] : List ℚ)
        [StoreInput.dict 1, StoreInput.dict 2, StoreInput.dict 3]
        = (appendedElems
            [StoreInput.dict (1 : ℚ), StoreInput.dict 2,
              StoreInput.dict 3]).drop
          ((appendedElems
            [StoreInput.dict (1 : ℚ), StoreInput.dict 2,
              StoreInput.dict 3]).length - 2)
    ∧ [(1 : ℚ), 2].length = 2
    ∧ (store 2 [(1 : ℚ), 2] (StoreInput.dict 3)).1 = [(1 : ℚ), 2].tail ++ [3] := by
  refine ⟨?_, ?_, by decide, ?_⟩
  · exact (replay_buffer_fifo_bounded 2
      [StoreInput.dict (1 : ℚ), StoreInput.dict 2, StoreInput.dict 3]).1
  · exact (replay_buffer_fifo_bounded 2
      [StoreInput.dict (1 : ℚ), StoreInput.dict 2, StoreInput.dict 3]).2.1
  · exact (replay_buffer_fifo_bounded 2
      [StoreInput.dict (1 : ℚ), StoreInput.dict 2,
        StoreInput.dict 3]).2.2 [(1 : ℚ), 2] 3 (by decide) (by decide)

/-- C6: within one `update`, the policy-gradient step leaves every Q-network
parameter unchanged; the Q parameters are modified only by the Q-optimizer
step, have `requires_grad` set to `False` during the policy step, and have
`requires_grad` restored to `True` by the end of the call. -/
theorem update_policy_step_preserves_q_params
    (stepQ stepPi : List ℚ → List ℚ) (polyak : ℚ) (s : AgentParams) :
    (piOptStep stepPi (freezeQ (qOptStep stepQ s))).qData
        = (qOptStep stepQ s).qData
      ∧ (freezeQ (qOptStep stepQ s)).qGrad
          = List.replicate s.qGrad.length false
      ∧ (piOptStep stepPi (freezeQ (qOptStep stepQ s))).qGrad
          = (freezeQ (qOptStep stepQ s)).qGrad
      ∧ (update stepQ stepPi polyak s).qGrad
          = List.replicate s.qGrad.length true
      ∧ (update stepQ stepPi polyak s).qData = stepQ s.qData := by
  refine ⟨rfl, ?_, rfl, ?_, rfl⟩
  · simp [freezeQ, qOptStep, List.map_const']
  · simp [update, polyakUpdate, unfreezeQ, piOptStep, freezeQ, qOptStep,
      List.map_const']

/-- C7: after `register_reset`, every subsequent `select_action` call takes
the learned-policy branch with deterministic action selection and never
samples a random action, provided `start_steps < 1e6`. -/
theorem register_reset_forces_learner_branch (start_steps : ℚ)
    (s0 : SelState) (h : start_steps < 1000000) (n : ℕ) :
    (select_action start_steps
        (stepsAfter start_steps (register_reset s0) n)).1
      = ActionBranch.learner true := by
  have inv : ∀ m : ℕ,
      1000000 ≤ (stepsAfter start_steps (register_reset s0) m).t
        ∧ (stepsAfter start_steps (register_reset s0) m).deterministic
            = true := by
    intro m
    induction m with
    | zero => exact ⟨le_refl _, rfl⟩
    | succ m ih =>
        constructor
        · show 1000000 ≤ (select_action start_steps _).2.t
          unfold select_action
          by_cases hc : start_steps
              < (stepsAfter start_steps (register_reset s0) m).t
          · simp only [hc, if_pos]
            linarith [ih.1]
          · simp only [hc, if_neg, not_false_iff]
            linarith [ih.1]
        · show (select_action start_steps _).2.deterministic = true
          unfold select_action
          by_cases hc : start_steps
              < (stepsAfter start_steps (register_reset s0) m).t
          · simp only [hc, if_pos]
            exact ih.2
          · simp only [hc, if_neg, not_false_iff]
            exact ih.2
  have hlt : start_steps < (stepsAfter start_steps (register_reset s0) n).t :=
    lt_of_lt_of_le h (inv n).1
  simp only [select_action, hlt, if_pos, (inv n).2]

/-- Witness for C7: `start_steps = 100`, five calls after the reset. -/
theorem register_reset_forces_learner_branch_witness :
    (100 : ℚ) < 1000000
    ∧ (select_action 100
          (stepsAfter 100 (register_reset ⟨0, false⟩) 5)).1
        = ActionBranch.learner true :=
  ⟨by norm_num,
    register_reset_forces_learner_branch 100 ⟨0, false⟩ (by norm_num) 5⟩

/-- C8: `store` on an input that is neither a dict nor a buffer of the same
class raises and leaves the contents unchanged; `store` of another buffer of
the same class appends all of its elements in their stored order (kept up to
the FIFO capacity, in particular verbatim when there is room). -/
theorem store_invalid_raises_buffer_appends {α : Type} (maxSize : ℕ)
    (buf : List α) :
    store maxSize buf StoreInput.invalid
        = (buf, some StoreError.invalidInputType)
      ∧ ∀ other : List α, buf.length ≤ maxSize →
          (store maxSize buf (StoreInput.buffer other)).2 = none
          ∧ (store maxSize buf (StoreInput.buffer other)).1
              = lastN maxSize (buf ++ other)
          ∧ (buf.length + other.length ≤ maxSize →
              (store maxSize buf (StoreInput.buffer other)).1 = buf ++ other) := by
  refine ⟨rfl, fun other hle => ⟨rfl, ?_, ?_⟩⟩
  · simpa [store] using dequeExtend_eq_lastN maxSize buf other hle
  · intro hroom
    have h1 : (store maxSize buf (StoreInput.buffer other)).1
        = lastN maxSize (buf ++ other) := by
      simpa [store] using dequeExtend_eq_lastN maxSize buf other hle
    rw [h1]
    exact lastN_of_le (by simpa using hroom)

/-- Witness for C8: capacity 5, buffer `[1, 2]`, invalid input rejected and
`[3, 4]` appended in order. -/
theorem store_invalid_raises_buffer_appends_witness :
    store 5 [(1 : ℚ), 2] StoreInput.invalid
        = ([(1 : ℚ), 2], some StoreError.invalidInputType)
    ∧ [(1 : ℚ), 2].length ≤ 5
    ∧ (store 5 [(1 : ℚ), 2] (StoreInput.buffer [3, 4])).2 = none
    ∧ (store 5 [(1 : ℚ), 2] (StoreInput.buffer [3, 4])).1
        = [(1 : ℚ), 2] ++ [3, 4] := by
  refine ⟨?_, by decide, ?_, ?_⟩
  · exact (store_invalid_raises_buffer_appends 5 [(1 : ℚ), 2]).1
  · exact ((store_invalid_raises_buffer_appends 5 [(1 : ℚ), 2]).2
      [3, 4] (by decide)).1
  · exact ((store_invalid_raises_buffer_appends 5 [(1 : ℚ), 2]).2
      [3, 4] (by decide)).2.2 (by decide)

/-- C9: `setup_vision_encoder` succeeds exactly when the configured encoder
type is `"vae"` (constructing the VAE backbone and loading its checkpoint);
for every other encoder type it fails with the assertion error, before any
backbone is constructed. -/
theorem setup_vision_encoder_only_vae (use_encoder_type : String) :
    ((setup_vision_encoder use_encoder_type).isOk
        ↔ use_encoder_type = "vae")
      ∧ setup_vision_encoder "vae"
          = Except.ok { backbone := "vae", checkpointLoaded := true }
      ∧ (use_encoder_type ≠ "vae" →
          setup_vision_encoder use_encoder_type
            = Except.error EncoderError.assertionError) := by
  by_cases h : use_encoder_type = "vae"
  · subst h
    refine ⟨?_, rfl, fun hne => absurd rfl hne⟩
    simp [setup_vision_encoder, Except.isOk, Except.toBool]
  · refine ⟨?_, rfl, fun _ => ?_⟩
    · simp [setup_vision_encoder, h, Except.isOk, Except.toBool]
    · simp [setup_vision_encoder, h]

/-- Witness for C9 at the encoder type `"resnet"`. -/
theorem setup_vision_encoder_only_vae_witness :
    ("resnet" : String) ≠ "vae"
    ∧ setup_vision_encoder "resnet"
        = Except.error EncoderError.assertionError :=
  ⟨by decide, (setup_vision_encoder_only_vae "resnet").2.2 (by decide)⟩

/-- C10: the single save thread is spawned by `setup_experience_recorder`
(which also creates the cross-thread save queue), `__init__` spawns it iff
`record_experience` is set, and no other agent operation spawns a thread or
touches the save queue. -/
theorem agent_thread_effects :
    threadsSpawned AgentOp.setupExperienceRecorder = 1
    ∧ touchesSaveQueue AgentOp.setupExperienceRecorder = true
    ∧ threadsSpawned (AgentOp.init true) = 1
    ∧ threadsSpawned (AgentOp.init false) = 0
    ∧ touchesSaveQueue (AgentOp.init true) = true
    ∧ touchesSaveQueue (AgentOp.init false) = false
    ∧ threadsSpawned AgentOp.selectAction = 0
    ∧ threadsSpawned AgentOp.registerReset = 0
    ∧ threadsSpawned AgentOp.loadModel = 0
    ∧ threadsSpawned AgentOp.saveModel = 0
    ∧ threadsSpawned AgentOp.setupVisionEncoder = 0
    ∧ threadsSpawned AgentOp.setParams = 0
    ∧ threadsSpawned AgentOp.loadModelConfig = 0
    ∧ threadsSpawned AgentOp.setupLoggers = 0
    ∧ threadsSpawned AgentOp.computeLossQ = 0
    ∧ threadsSpawned AgentOp.computeLossPi = 0
    ∧ threadsSpawned AgentOp.updateOp = 0
    ∧ threadsSpawned AgentOp.updateBestPctComplete = 0
    ∧ threadsSpawned AgentOp.checkpointModel = 0
    ∧ threadsSpawned AgentOp.addExperience = 0
    ∧ threadsSpawned AgentOp.logValMetricsToTensorboard = 0
    ∧ threadsSpawned AgentOp.logTrainMetricsToTensorboard = 0
    ∧ touchesSaveQueue AgentOp.selectAction = false
    ∧ touchesSaveQueue AgentOp.registerReset = false
    ∧ touchesSaveQueue AgentOp.loadModel = false
    ∧ touchesSaveQueue AgentOp.saveModel = false
    ∧ touchesSaveQueue AgentOp.setupVisionEncoder = false
    ∧ touchesSaveQueue AgentOp.setParams = false
    ∧ touchesSaveQueue AgentOp.loadModelConfig = false
    ∧ touchesSaveQueue AgentOp.setupLoggers = false
    ∧ touchesSaveQueue AgentOp.computeLossQ = false
    ∧ touchesSaveQueue AgentOp.computeLossPi = false
    ∧ touchesSaveQueue AgentOp.updateOp = false
    ∧ touchesSaveQueue AgentOp.updateBestPctComplete = false
    ∧ touchesSaveQueue AgentOp.checkpointModel = false
    ∧ touchesSaveQueue AgentOp.addExperience = false
    ∧ touchesSaveQueue AgentOp.logValMetricsToTensorboard = false
    ∧ touchesSaveQueue AgentOp.logTrainMetricsToTensorboard = false := by
  decide

end L2RLab
